import Mathlib

/-!
Shallow embedding of `practical_project_4.py`: a record-management utility
with an in-memory repository (load/save/add/edit/delete/display), a
pluggable record formatter, a counting pass used for the bar chart, and a
menu-driven presentation loop.

Modelling conventions:
* Python lists of `Record` become `List Record`; Python `int` indices become
  `Int` (they may be negative or out of range).
* `print` output is modelled as a returned `List String` of messages.
* The CSV file is modelled at row granularity, as the `csv` module's
  writer/reader collaborators see it: a file is a list of rows, each row a
  list of string cells.  `csv.DictReader` is modelled by positional lookup
  of a column name in the header row.  A missing file (`FileNotFoundError`)
  is the `none` case of `Option`.
* User input is a finite list of strings consumed in order; exhausting it
  models the end of the interactive session.
-/

/-- One observation, mirroring class `Record` (seven string fields, no
validation). -/
structure Record where
  source : String
  latin_name : String
  english_name : String
  french_name : String
  year : String
  month : String
  number_otoliths : String
deriving DecidableEq, Repr

/-- `DefaultRecordFormatter.format_record`: the default display layout. -/
def format_record (r : Record) : String :=
  "Source: " ++ r.source ++ ", Latin Name: " ++ r.latin_name ++
  ", English Name: " ++ r.english_name ++ ", French Name: " ++ r.french_name ++
  ", Year: " ++ r.year ++ ", Month: " ++ r.month ++
  ", Number of Otoliths: " ++ r.number_otoliths

/-- The fixed CSV header written by `save_records` and expected by
`load_records`. -/
def expectedHeader : List String :=
  ["source", "latin.name_nom.latin", "english.name_nom.anglais",
   "french.name_nom.français", "year_année", "month_mois",
   "number.otoliths_nombre.otolithes"]

/-- The row written for one record by `save_records` (line 76-77). -/
def toRow (r : Record) : List String :=
  [r.source, r.latin_name, r.english_name, r.french_name,
   r.year, r.month, r.number_otoliths]

/-- Lookup of one column of a `csv.DictReader` row: the header position of
the column name, then the cell at that position.  `none` models a column
absent from the header (a `KeyError` in Python); we conservatively also
return `none` for a row too short to reach the column (Python would yield
its `restval`, `None`) — no theorem below exercises that corner. -/
def dictGet (hdr row : List String) (key : String) : Option String :=
  match hdr.findIdx? (fun c => c = key) with
  | some i => row.get? i
  | none => none

/-- One iteration of the `for row in reader` body of `load_records`
(lines 51-61): build a `Record` from the row's seven named cells. -/
def parseRow (hdr row : List String) : Option Record := do
  let s ← dictGet hdr row "source"
  let ln ← dictGet hdr row "latin.name_nom.latin"
  let en ← dictGet hdr row "english.name_nom.anglais"
  let fn ← dictGet hdr row "french.name_nom.français"
  let y ← dictGet hdr row "year_année"
  let m ← dictGet hdr row "month_mois"
  let no ← dictGet hdr row "number.otoliths_nombre.otolithes"
  pure ⟨s, ln, en, fn, y, m, no⟩

/-- The row loop of `load_records`: each parsed record is appended to the
accumulated list (`self.records.append(record)`); `csv.DictReader` skips
blank rows; a row that fails to parse raises, aborting the loop with the
records appended so far kept, and the generic handler prints a message
(line 64-65 interpolates the exception text; we keep a fixed message). -/
def loadLoop (hdr : List String) (acc : List Record) :
    List (List String) → List Record × List String
  | [] => (acc, [])
  | [] :: rest => loadLoop hdr acc rest
  | row :: rest =>
    match parseRow hdr row with
    | some r => loadLoop hdr (acc ++ [r]) rest
    | none => (acc, ["An error occurred"])

/-- `BusinessLayer.load_records` (lines 46-65) over the current record list
and the dataset file.  `none` is a missing file (`FileNotFoundError`); an
empty file gives a `DictReader` that yields no rows; otherwise the first
row is the header and the rest are data rows.  Note the method never clears
`self.records`: parsed rows are appended to whatever was already there. -/
def load_records (prev : List Record) (file : Option (List (List String))) :
    List Record × List String :=
  match file with
  | none => (prev, ["Error: File not found."])
  | some [] => (prev, [])
  | some (hdr :: rows) => loadLoop hdr prev rows

/-- The rows `BusinessLayer.save_records` (lines 67-80) writes: the fixed
header, then one row per record in sequence order. -/
def save_records (recs : List Record) : List (List String) :=
  expectedHeader :: recs.map toRow

/-- `BusinessLayer.add_record` (lines 99-102). -/
def add_record (recs : List Record) (r : Record) : List Record × List String :=
  (recs ++ [r], ["Record added successfully."])

/-- `BusinessLayer.display_record` (lines 82-89): a valid index prints the
formatted record via the injected formatter, an invalid index prints an
error; the record list itself is never touched (returned unchanged). -/
def display_record (fmt : Record → String) (recs : List Record) (index : Int) :
    List Record × List String :=
  if h : 0 ≤ index ∧ index < (recs.length : Int) then
    (recs, [fmt (recs.get ⟨index.toNat, by omega⟩)])
  else
    (recs, ["Invalid record index."])

/-- `BusinessLayer.display_records` (lines 91-97): every record in order
with a 1-based ordinal label, and an attribution line after every 10th. -/
def display_records (fmt : Record → String) (recs : List Record) : List String :=
  (recs.enum).foldr
    (fun p out =>
      ["Record " ++ toString (p.1 + 1)] ++
      (display_record fmt recs (Int.ofNat p.1)).2 ++
      (if (p.1 + 1) % 10 = 0 then ["Program by Ben Nguyen"] else []) ++ out)
    []

/-- `BusinessLayer.edit_record` (lines 104-110): a valid index replaces the
record at that position wholesale; an invalid index reports an error and
changes nothing. -/
def edit_record (recs : List Record) (index : Int) (new_record : Record) :
    List Record × List String :=
  if 0 ≤ index ∧ index < (recs.length : Int) then
    (recs.set index.toNat new_record, ["Record edited successfully."])
  else
    (recs, ["Invalid record index."])

/-- `BusinessLayer.delete_record` (lines 112-118): a valid index removes the
record at that position (`del self.records[index]`); an invalid index
reports an error and changes nothing. -/
def delete_record (recs : List Record) (index : Int) :
    List Record × List String :=
  if 0 ≤ index ∧ index < (recs.length : Int) then
    (recs.eraseIdx index.toNat, ["Record deleted successfully."])
  else
    (recs, ["Invalid record index."])

/-- `collections.Counter` on a list of strings, as an association list in
first-seen order of the distinct values (Python dicts preserve insertion
order): one counting step. -/
def counterAdd (acc : List (String × Nat)) (v : String) : List (String × Nat) :=
  if acc.any (fun p => p.1 = v) then
    acc.map (fun p => if p.1 = v then (p.1, p.2 + 1) else p)
  else
    acc ++ [(v, 1)]

/-- `Counter(x_values)` (line 144). -/
def counter (vals : List String) : List (String × Nat) :=
  vals.foldl counterAdd []

/-- `getattr(record, x_column)` (line 142) for the column names offered by
`generate_bar_chart`; `none` models an `AttributeError` for any other
name (caught by the surrounding handler). -/
def getattrField (x_column : String) : Option (Record → String) :=
  if x_column = "source" then some Record.source
  else if x_column = "latin_name" then some Record.latin_name
  else if x_column = "english_name" then some Record.english_name
  else if x_column = "french_name" then some Record.french_name
  else if x_column = "year" then some Record.year
  else if x_column = "month" then some Record.month
  else if x_column = "number_otoliths" then some Record.number_otoliths
  else none

/-- The counting pass of `BusinessLayer.generate_bar_chart` (lines 139-146):
collect the chosen field of every record and count occurrences of each
distinct value. -/
def generate_bar_chart_counts (field : Record → String) (recs : List Record) :
    List (String × Nat) :=
  counter (recs.map field)

/-- The sample record used by the unit test `test_default_record_format`. -/
def sampleRecord : Record :=
  ⟨"Source", "Latin Name", "English Name", "French Name", "2024", "March", "24"⟩

/-- Digits of a decimal literal, or `none` if empty or not all digits. -/
def digitsToNat (cs : List Char) : Option Nat :=
  if cs ≠ [] ∧ cs.all Char.isDigit then
    some (cs.foldl (fun a c => a * 10 + (c.toNat - 48)) 0)
  else
    none

/-- Strip leading and trailing whitespace from a character list. -/
def stripChars (cs : List Char) : List Char :=
  ((cs.dropWhile Char.isWhitespace).reverse.dropWhile Char.isWhitespace).reverse

/-- Python's `int(s)`: surrounding whitespace stripped, optional sign, a
nonempty run of decimal digits; anything else raises `ValueError`, the
`none` case.  (Python additionally accepts underscore digit separators and
unicode whitespace; not modelled — no theorem below depends on them.) -/
def pyInt (s : String) : Option Int :=
  match stripChars s.data with
  | '+' :: rest => (digitsToNat rest).map Int.ofNat
  | '-' :: rest => (digitsToNat rest).map (fun n => -(Int.ofNat n))
  | cs => (digitsToNat cs).map Int.ofNat

/-- `int(input(...)) - 1`, the index computation of
`select_display_edit_record` (line 219) and `delete_record` (line 231). -/
def parseIndex (s : String) : Option Int :=
  (pyInt s).map (fun n => n - 1)

/-- Consume `n` prompts from the remaining input, as `create_record`
(lines 206-215) reads its seven fields; `none` when input runs out. -/
def takeN (n : Nat) (l : List String) : Option (List String × List String) :=
  if n ≤ l.length then some (l.take n, l.drop n) else none

/-- `create_record` from its seven consumed answers (in prompt order). -/
def mkRecord (fields : List String) : Record :=
  ⟨fields.getD 0 "", fields.getD 1 "", fields.getD 2 "", fields.getD 3 "",
   fields.getD 4 "", fields.getD 5 "", fields.getD 6 ""⟩

/-- The mutable state the menu loop acts on: the business layer's record
list and the dataset file that menu option 1 reloads from. -/
structure AppState where
  records : List Record
  file : Option (List (List String))
deriving DecidableEq, Repr

/-- How a run of the interaction loop ends.  `exited` is menu option 7;
`outOfInput` models the supplied input list (the interactive session)
ending; `crashed` is an unhandled exception escaping the loop. -/
inductive LoopResult where
  | exited (st : AppState) (out : List String)
  | outOfInput (st : AppState) (out : List String)
  | crashed (st : AppState) (out : List String) (exc : String)
deriving DecidableEq, Repr

/-- Whether the run ended in an unhandled exception. -/
def LoopResult.isCrash : LoopResult → Bool
  | .crashed _ _ _ => true
  | _ => false

/-- `PresentationLayer.start` (lines 182-204) together with the handlers it
dispatches to, driven by a finite input list.  Each iteration consumes the
menu choice and whatever further prompts the chosen branch reads.  `out`
accumulates the feedback messages the branches print (the constant menu
text re-printed each iteration is elided).  `fuel` bounds the number of
iterations; every iteration consumes at least one input, so a fuel of
`inputs.length + 1` (used by `start`) never runs out before the input does.

Branch notes, mirroring the source:
* option 1 reloads (appending, per `load_records`);
* option 3 reads seven field prompts then appends;
* option 4 reads an index with `int(...)` — a non-integer answer raises an
  unhandled `ValueError`; a valid index displays the record then offers an
  edit, which reads seven more prompts when answered `yes`;
* option 5 reads an index with `int(...)` — same unhandled `ValueError`;
* option 6 (`generate_bar_chart`) runs entirely inside `try`, so its
  prompt and `getattr` cannot raise out of the loop;
* option 7 exits; anything else reports an invalid choice. -/
def startLoop (fmt : Record → String) :
    Nat → AppState → List String → List String → LoopResult
  | 0, st, out, _ => .outOfInput st out
  | Nat.succ fuel, st, out, inputs =>
    match inputs with
    | [] => .outOfInput st out
    | choice :: rest =>
      if choice = "1" then
        let res := load_records st.records st.file
        startLoop fmt fuel { st with records := res.1 } (out ++ res.2) rest
      else if choice = "2" then
        startLoop fmt fuel st (out ++ display_records fmt st.records) rest
      else if choice = "3" then
        match takeN 7 rest with
        | none => .outOfInput st out
        | some (fields, rest') =>
          let res := add_record st.records (mkRecord fields)
          startLoop fmt fuel { st with records := res.1 } (out ++ res.2) rest'
      else if choice = "4" then
        match rest with
        | [] => .outOfInput st out
        | idxStr :: rest' =>
          match parseIndex idxStr with
          | none => .crashed st out "ValueError"
          | some index =>
            if 0 ≤ index ∧ index < (st.records.length : Int) then
              let out := out ++ (display_record fmt st.records index).2
              match rest' with
              | [] => .outOfInput st out
              | ans :: rest'' =>
                if ans.toLower = "yes" then
                  match takeN 7 rest'' with
                  | none => .outOfInput st out
                  | some (fields, rest3) =>
                    let res := edit_record st.records index (mkRecord fields)
                    startLoop fmt fuel { st with records := res.1 }
                      (out ++ res.2) rest3
                else
                  startLoop fmt fuel st out rest''
            else
              startLoop fmt fuel st (out ++ ["Invalid record index."]) rest'
      else if choice = "5" then
        match rest with
        | [] => .outOfInput st out
        | idxStr :: rest' =>
          match parseIndex idxStr with
          | none => .crashed st out "ValueError"
          | some index =>
            let res := delete_record st.records index
            startLoop fmt fuel { st with records := res.1 } (out ++ res.2) rest'
      else if choice = "6" then
        match rest with
        | [] =>
          startLoop fmt fuel st
            (out ++ ["An error occurred while generating the bar chart:"]) []
        | col :: rest' =>
          match getattrField col with
          | some _ => startLoop fmt fuel st out rest'
          | none =>
            startLoop fmt fuel st
              (out ++ ["An error occurred while generating the bar chart:"])
              rest'
      else if choice = "7" then
        .exited st out
      else
        startLoop fmt fuel st (out ++ ["Invalid choice. Please try again."]) rest

/-- Run the interaction loop on a finite input list. -/
def start (fmt : Record → String) (st : AppState) (inputs : List String) :
    LoopResult :=
  startLoop fmt (inputs.length + 1) st [] inputs

/-- A second concrete record, used at concrete inputs. -/
def otherRecord : Record :=
  ⟨"DFO", "Limanda ferruginea", "Yellowtail Flounder", "Limande à queue jaune",
   "2020", "May", "3"⟩

/-! ### Helper lemmas -/

theorem parseRow_toRow (r : Record) :
    parseRow expectedHeader (toRow r) = some r := rfl

theorem loadLoop_map_toRow (recs : List Record) (acc : List Record) :
    loadLoop expectedHeader acc (recs.map toRow) = (acc ++ recs, []) := by
  induction recs generalizing acc with
  | nil => simp [loadLoop]
  | cons r rs ih =>
    have hstep :
        loadLoop expectedHeader acc (toRow r :: rs.map toRow) =
          loadLoop expectedHeader (acc ++ [r]) (rs.map toRow) := by
      show (match parseRow expectedHeader (toRow r) with
        | some x => loadLoop expectedHeader (acc ++ [x]) (rs.map toRow)
        | none => (acc, ["An error occurred"])) = _
      rw [parseRow_toRow]
    simp only [List.map_cons, hstep, ih]
    simp

theorem takeN_rest_subset {n : Nat} {l a b : List String}
    (h : takeN n l = some (a, b)) : ∀ x ∈ b, x ∈ l := by
  unfold takeN at h
  split at h
  · cases h
    exact fun x hx => List.drop_subset n l hx
  · cases h

/-! ### Claims -/

/-- C8: `DefaultRecordFormatter.format_record` on the unit test's sample
record returns exactly the expected string, and in general interpolates the
seven fields as raw strings into the fixed layout. -/
theorem C8_default_format :
    format_record sampleRecord =
      "Source: Source, Latin Name: Latin Name, English Name: English Name, French Name: French Name, Year: 2024, Month: March, Number of Otoliths: 24" ∧
    ∀ r : Record, format_record r =
      "Source: " ++ r.source ++ ", Latin Name: " ++ r.latin_name ++
      ", English Name: " ++ r.english_name ++ ", French Name: " ++ r.french_name ++
      ", Year: " ++ r.year ++ ", Month: " ++ r.month ++
      ", Number of Otoliths: " ++ r.number_otoliths :=
  ⟨by decide, fun r => rfl⟩

/-- C3 (counterexample): with a non-empty repository, a load whose source
file is missing does not leave the sequence empty — the claim's "the record
sequence is empty after the call" fails. -/
theorem C3_counterexample :
    ¬ (load_records [sampleRecord] none).1 = [] := by decide

/-- C3 (amended): when the source file does not exist, `load_records`
reports "Error: File not found." and leaves the record sequence exactly as
it was (hence empty only when it was already empty, as at construction). -/
theorem C3_file_not_found (prev : List Record) :
    load_records prev none = (prev, ["Error: File not found."]) := rfl

/-- C4: for every invalid index (negative or at least the length), each of
`display_record`, `edit_record` and `delete_record` reports
"Invalid record index." and returns the record sequence unchanged. -/
theorem C4_invalid_index_frame (fmt : Record → String) (recs : List Record)
    (i : Int) (r : Record) (h : i < 0 ∨ (recs.length : Int) ≤ i) :
    display_record fmt recs i = (recs, ["Invalid record index."]) ∧
    edit_record recs i r = (recs, ["Invalid record index."]) ∧
    delete_record recs i = (recs, ["Invalid record index."]) := by
  have hc : ¬(0 ≤ i ∧ i < (recs.length : Int)) := by omega
  refine ⟨?_, ?_, ?_⟩
  · rw [display_record, dif_neg hc]
  · rw [edit_record, if_neg hc]
  · rw [delete_record, if_neg hc]

/-- C4 witness at a concrete out-of-range index. -/
theorem C4_invalid_index_frame_witness :
    display_record format_record [sampleRecord] 5 =
      ([sampleRecord], ["Invalid record index."]) ∧
    edit_record [sampleRecord] 5 otherRecord =
      ([sampleRecord], ["Invalid record index."]) ∧
    delete_record [sampleRecord] 5 =
      ([sampleRecord], ["Invalid record index."]) :=
  C4_invalid_index_frame format_record [sampleRecord] 5 otherRecord
    (by decide)

/-- C6: for every valid index, `delete_record` removes exactly the element
at that index — the result is the original with position `i` excised (so
the relative order of the others is preserved) and the length drops by 1. -/
theorem C6_delete_valid (recs : List Record) (i : Int)
    (h0 : 0 ≤ i) (h1 : i < (recs.length : Int)) :
    delete_record recs i =
      (recs.take i.toNat ++ recs.drop (i.toNat + 1),
       ["Record deleted successfully."]) ∧
    (delete_record recs i).1.length = recs.length - 1 := by
  have hc : 0 ≤ i ∧ i < (recs.length : Int) := ⟨h0, h1⟩
  have hlt : i.toNat < recs.length := by omega
  constructor
  · rw [delete_record, if_pos hc, List.eraseIdx_eq_take_drop_succ]
  · rw [delete_record, if_pos hc]
    exact List.length_eraseIdx_of_lt hlt

/-- C6 witness at a concrete valid index. -/
theorem C6_delete_valid_witness :
    delete_record [sampleRecord, otherRecord] 0 =
      ([sampleRecord, otherRecord].take 0 ++ [sampleRecord, otherRecord].drop 1,
       ["Record deleted successfully."]) ∧
    (delete_record [sampleRecord, otherRecord] 0).1.length = 2 - 1 :=
  C6_delete_valid [sampleRecord, otherRecord] 0 (by decide) (by decide)

/-- C7: for every valid index, `display_record` emits exactly the active
formatter applied to the record at that index, and returns the record
sequence unchanged. -/
theorem C7_display_valid (fmt : Record → String) (recs : List Record)
    (i : Int) (h0 : 0 ≤ i) (h1 : i.toNat < recs.length) :
    display_record fmt recs i = (recs, [fmt (recs.get ⟨i.toNat, h1⟩)]) := by
  have hc : 0 ≤ i ∧ i < (recs.length : Int) := ⟨h0, by omega⟩
  rw [display_record, dif_pos hc]

/-- C7 witness at a concrete valid index. -/
theorem C7_display_valid_witness :
    display_record format_record [sampleRecord, otherRecord] 1 =
      ([sampleRecord, otherRecord], [format_record otherRecord]) :=
  C7_display_valid format_record [sampleRecord, otherRecord] 1
    (by decide) (by decide)

/-- C10 (frame property of edit): for every valid index, `edit_record`
keeps the length and leaves the record at every other position untouched. -/
theorem C10_edit_frame (recs : List Record) (i : Int) (r : Record)
    (h0 : 0 ≤ i) (h1 : i < (recs.length : Int)) :
    (edit_record recs i r).1.length = recs.length ∧
    ∀ j : Nat, j ≠ i.toNat →
      (edit_record recs i r).1[j]? = recs[j]? := by
  have hc : 0 ≤ i ∧ i < (recs.length : Int) := ⟨h0, h1⟩
  rw [edit_record, if_pos hc]
  exact ⟨List.length_set recs i.toNat r,
    fun j hj => List.getElem?_set_ne (Ne.symm hj)⟩

/-- C10 witness at a concrete valid index. -/
theorem C10_edit_frame_witness :
    (edit_record [sampleRecord, otherRecord] 0 otherRecord).1.length = 2 ∧
    ∀ j : Nat, j ≠ (0 : Int).toNat →
      (edit_record [sampleRecord, otherRecord] 0 otherRecord).1[j]? =
        [sampleRecord, otherRecord][j]? :=
  C10_edit_frame [sampleRecord, otherRecord] 0 otherRecord
    (by decide) (by decide)

/-- C1 (counterexample): starting from a repository holding one record, a
load that parses exactly one row without error does not leave the sequence
equal to just that parsed row — `load_records` never clears the existing
sequence, so load does not replace it. -/
theorem C1_counterexample :
    ¬ (load_records [sampleRecord]
        (some (expectedHeader :: [toRow otherRecord]))).1 = [otherRecord] := by
  decide

/-- C1 (amended): a load that parses rows for records r1..rn without error
appends them — the sequence afterwards is the previous sequence followed by
[r1..rn], not [r1..rn] alone. -/
theorem C1_load_appends (prev recs : List Record) :
    load_records prev (some (expectedHeader :: recs.map toRow)) =
      (prev ++ recs, []) := by
  rw [load_records]
  exact loadLoop_map_toRow recs prev

/-- C5 (round trip): loading a fresh repository from the rows written by
`save_records` reproduces the saved sequence exactly, field by field. -/
theorem C5_save_load_round_trip (recs : List Record) :
    load_records [] (some (save_records recs)) = (recs, []) := by
  rw [save_records, load_records]
  simpa using loadLoop_map_toRow recs []

theorem lookup_cons_self (k : String) (n : Nat) (l : List (String × Nat)) :
    ((k, n) :: l).lookup k = some n := by
  simp [List.lookup]

theorem lookup_cons_ne {v k : String} (h : v ≠ k) (n : Nat)
    (l : List (String × Nat)) : ((k, n) :: l).lookup v = l.lookup v := by
  simp [List.lookup, beq_false_of_ne h]

theorem lookup_bump (acc : List (String × Nat)) (w v : String) :
    (acc.map (fun p => if p.1 = w then (p.1, p.2 + 1) else p)).lookup v =
      (acc.lookup v).map (fun n => if v = w then n + 1 else n) := by
  induction acc with
  | nil => rfl
  | cons p acc ih =>
    obtain ⟨k, n⟩ := p
    by_cases hkw : k = w
    · have hhead : (if (k, n).1 = w then ((k, n).1, (k, n).2 + 1) else (k, n))
          = (k, n + 1) := by simp [hkw]
      rw [List.map_cons, hhead]
      by_cases hkv : k = v
      · subst hkv
        rw [lookup_cons_self, lookup_cons_self, hkw]
        simp
      · have hvk : v ≠ k := fun hh => hkv hh.symm
        rw [lookup_cons_ne hvk, lookup_cons_ne hvk, ih]
    · have hhead : (if (k, n).1 = w then ((k, n).1, (k, n).2 + 1) else (k, n))
          = (k, n) := by simp [hkw]
      rw [List.map_cons, hhead]
      by_cases hkv : k = v
      · subst hkv
        rw [lookup_cons_self, lookup_cons_self]
        simp [hkw]
      · have hvk : v ≠ k := fun hh => hkv hh.symm
        rw [lookup_cons_ne hvk, lookup_cons_ne hvk, ih]

theorem lookup_none_of_not_mem_keys (acc : List (String × Nat)) (v : String)
    (h : acc.any (fun p => p.1 = v) = false) : acc.lookup v = none := by
  induction acc with
  | nil => rfl
  | cons p acc ih =>
    obtain ⟨k, n⟩ := p
    simp only [List.any_cons, Bool.or_eq_false_iff, decide_eq_false_iff_not] at h
    rw [lookup_cons_ne (fun hh => h.1 hh.symm)]
    exact ih h.2

theorem lookup_mem_keys_isSome (acc : List (String × Nat)) (v : String)
    (h : acc.any (fun p => p.1 = v) = true) : (acc.lookup v).isSome := by
  induction acc with
  | nil => simp at h
  | cons p acc ih =>
    obtain ⟨k, n⟩ := p
    by_cases hkv : k = v
    · subst hkv
      rw [lookup_cons_self]
      rfl
    · simp only [List.any_cons, Bool.or_eq_true, decide_eq_true_eq] at h
      rw [lookup_cons_ne (fun hh => hkv hh.symm)]
      exact ih (h.resolve_left hkv)

theorem lookup_counterAdd (acc : List (String × Nat)) (w v : String) :
    ((counterAdd acc w).lookup v).getD 0 =
      (acc.lookup v).getD 0 + (if w = v then 1 else 0) := by
  rw [counterAdd]
  by_cases hany : acc.any (fun p => p.1 = w) = true
  · rw [if_pos hany, lookup_bump]
    by_cases hvw : v = w
    · subst hvw
      obtain ⟨n, hn⟩ :=
        Option.isSome_iff_exists.mp (lookup_mem_keys_isSome acc v hany)
      simp [hn]
    · have hwv : ¬ w = v := fun hh => hvw hh.symm
      cases hlv : acc.lookup v <;> simp [hlv, hvw, hwv]
  · rw [if_neg hany]
    have hnone : acc.lookup w = none :=
      lookup_none_of_not_mem_keys acc w (Bool.eq_false_iff.mpr hany)
    by_cases hvw : v = w
    · subst hvw
      rw [List.lookup_append, hnone, lookup_cons_self]
      simp [hnone]
    · have hwv : ¬ w = v := fun hh => hvw hh.symm
      rw [List.lookup_append, lookup_cons_ne hvw]
      cases hlv : acc.lookup v with
      | none => simp [hwv]
      | some n => simp [hwv]

theorem lookup_counter_foldl (vals : List String) (acc : List (String × Nat))
    (v : String) :
    ((vals.foldl counterAdd acc).lookup v).getD 0 =
      (acc.lookup v).getD 0 + vals.count v := by
  induction vals generalizing acc with
  | nil => simp
  | cons w vals ih =>
    rw [List.foldl_cons, ih, lookup_counterAdd, List.count_cons]
    simp only [beq_iff_eq]
    by_cases hw : w = v
    · simp only [hw, if_pos rfl]
      omega
    · simp only [hw, if_neg hw]
      omega

/-- C9: the bar chart's counting pass maps every field value to the number
of records carrying it (0, i.e. absent from the mapping, when none does),
and on records whose years are ["2020", "2021", "2020"] counting by the
year field yields exactly the mapping 2020 ↦ 2, 2021 ↦ 1. -/
theorem C9_count_by_field :
    (∀ (field : Record → String) (recs : List Record) (v : String),
      ((generate_bar_chart_counts field recs).lookup v).getD 0 =
        (recs.map field).count v) ∧
    generate_bar_chart_counts Record.year
        [{ sampleRecord with year := "2020" },
         { sampleRecord with year := "2021" },
         { sampleRecord with year := "2020" }] =
      [("2020", 2), ("2021", 1)] := by
  constructor
  · intro field recs v
    rw [generate_bar_chart_counts, counter, lookup_counter_foldl]
    simp [List.lookup]
  · decide

theorem parseIndex_isSome {s : String} (h : (pyInt s).isSome = true) :
    (parseIndex s).isSome = true := by
  rw [parseIndex]
  obtain ⟨m, hm⟩ := Option.isSome_iff_exists.mp h
  rw [hm]
  rfl

theorem startLoop_no_crash (fmt : Record → String) (fuel : Nat) :
    ∀ (inputs : List String) (st : AppState) (out : List String),
      (∀ x ∈ inputs, (pyInt x).isSome = true) →
      (startLoop fmt fuel st out inputs).isCrash = false := by
  induction fuel with
  | zero =>
    intro inputs st out _
    rfl
  | succ fuel ih =>
    intro inputs st out h
    cases inputs with
    | nil => rfl
    | cons choice rest =>
      have hrest : ∀ x ∈ rest, (pyInt x).isSome = true :=
        fun x hx => h x (List.mem_cons_of_mem _ hx)
      simp only [startLoop]
      split_ifs with h1 h2 h3 h4 h5 h6 h7
      · exact ih rest _ _ hrest
      · exact ih rest _ _ hrest
      · cases htake : takeN 7 rest with
        | none => simp only [htake, LoopResult.isCrash]
        | some p =>
          obtain ⟨fields, rest'⟩ := p
          simp only [htake]
          exact ih rest' _ _
            (fun x hx => hrest x (takeN_rest_subset htake x hx))
      · cases rest with
        | nil => rfl
        | cons idxStr rest' =>
          have hidx : (parseIndex idxStr).isSome = true :=
            parseIndex_isSome (hrest idxStr (List.mem_cons_self _ _))
          have hrest' : ∀ x ∈ rest', (pyInt x).isSome = true :=
            fun x hx => hrest x (List.mem_cons_of_mem _ hx)
          cases hp : parseIndex idxStr with
          | none => rw [hp] at hidx; simp at hidx
          | some index =>
            simp only [hp]
            by_cases hv : 0 ≤ index ∧ index < (st.records.length : Int)
            · rw [if_pos hv]
              cases rest' with
              | nil => rfl
              | cons ans rest'' =>
                dsimp only
                have hrest'' : ∀ x ∈ rest'', (pyInt x).isSome = true :=
                  fun x hx => hrest' x (List.mem_cons_of_mem _ hx)
                by_cases hans : ans.toLower = "yes"
                · rw [if_pos hans]
                  cases htake : takeN 7 rest'' with
                  | none => simp only [htake, LoopResult.isCrash]
                  | some p =>
                    obtain ⟨fields, rest3⟩ := p
                    simp only [htake]
                    exact ih rest3 _ _
                      (fun x hx => hrest'' x (takeN_rest_subset htake x hx))
                · rw [if_neg hans]
                  exact ih rest'' _ _ hrest''
            · rw [if_neg hv]
              exact ih rest' _ _ hrest'
      · cases rest with
        | nil => rfl
        | cons idxStr rest' =>
          have hidx : (parseIndex idxStr).isSome = true :=
            parseIndex_isSome (hrest idxStr (List.mem_cons_self _ _))
          have hrest' : ∀ x ∈ rest', (pyInt x).isSome = true :=
            fun x hx => hrest x (List.mem_cons_of_mem _ hx)
          cases hp : parseIndex idxStr with
          | none => rw [hp] at hidx; simp at hidx
          | some index =>
            simp only [hp]
            exact ih rest' _ _ hrest'
      · cases rest with
        | nil =>
          exact ih [] _ _ (fun x hx => absurd hx (List.not_mem_nil x))
        | cons col rest' =>
          have hrest' : ∀ x ∈ rest', (pyInt x).isSome = true :=
            fun x hx => hrest x (List.mem_cons_of_mem _ hx)
          cases hg : getattrField col with
          | none => simp only [hg]; exact ih rest' _ _ hrest'
          | some f => simp only [hg]; exact ih rest' _ _ hrest'
      · rfl
      · exact ih rest _ _ hrest

/-- C2 (counterexample): the interaction loop does not survive every input
sequence — choosing menu option 5 (delete) and answering the index prompt
with the non-numeric text "abc" raises an unhandled `ValueError` from
`int(input(...))`, terminating the loop abnormally. -/
theorem C2_counterexample :
    (start format_record ⟨[], none⟩ ["5", "abc"]).isCrash = true := by decide

/-- C2 (amended): the loop never terminates abnormally as long as every
supplied input parses as an integer (in particular, invalid menu choices
and out-of-range indices are reported and the loop continues); the only
crash sites are the unguarded `int(input(...))` index prompts of menu
options 4 and 5. -/
theorem C2_no_crash_for_integer_inputs (fmt : Record → String) (st : AppState)
    (inputs : List String) (h : ∀ x ∈ inputs, (pyInt x).isSome = true) :
    (start fmt st inputs).isCrash = false :=
  startLoop_no_crash fmt (inputs.length + 1) inputs st [] h

/-- C2 witness: a concrete all-numeric session (add a record, try an
out-of-range delete, then exit) finishes without a crash. -/
theorem C2_no_crash_witness :
    (start format_record ⟨[], none⟩
      ["3", "1", "2", "3", "4", "2020", "5", "6", "5", "99", "7"]).isCrash =
      false :=
  C2_no_crash_for_integer_inputs format_record ⟨[], none⟩
    ["3", "1", "2", "3", "4", "2020", "5", "6", "5", "99", "7"] (by decide)
